import Mathlib

/-!
Shallow embedding of the assembler-simulator parser
(`src/features/assembler/core/parser.ts`) and of the controller step guard
(`src/features/controller/hooks.ts`), with theorems checking the
natural-language specification against the code.

Tokens are the parser's input; the tokenizer itself is outside the embedded
sources, so `Token` is taken as the data model of §3 of the spec.
-/

namespace AsmSim

/-- Source range `{ from, to }` of a token or node (`from` and `to` are Lean
keywords, so the fields carry a prime). -/
structure SourceRange where
  from' : Nat
  to' : Nat
  deriving DecidableEq, Repr

/-- Token types produced by the tokenizer (`tokenizer.ts`, §3 of the spec):
colon, comma, digit sequence, register name, bracketed address, quoted
string, and unknown (identifier / mnemonic / malformed text). -/
inductive TokenType where
  | Colon
  | Comma
  | Digits
  | Register
  | Address
  | String
  | Unknown
  deriving DecidableEq, Repr

/-- A token: `{ type, value, raw, range }` as consumed by `parser.ts`. -/
structure Token where
  type : TokenType
  value : String
  raw : String
  range : SourceRange
  deriving DecidableEq, Repr

/-- `token.position` of `exceptions.ts`: the start of the token's range. -/
def Token.position (t : Token) : Nat := t.range.from'

/-- `token.length` of `exceptions.ts`: the extent of the token's range. -/
def Token.extent (t : Token) : Nat := t.range.to' - t.range.from'

/-- Operand kinds (`enum OperandType` in `parser.ts`). -/
inductive OperandType where
  | Number
  | Register
  | Address
  | RegisterAddress
  | String
  | Label
  deriving DecidableEq, Repr

/-- Mnemonics appearing in `parser.ts`. The zero-operand set beyond `END`
comes from the constants module absent from the embedded sources; `HALT` is
included as a representative second zero-operand mnemonic (spec §4.4 step 8),
the claims do not depend on the rest of that set. -/
inductive Mnemonic where
  | END | HALT
  | INC | DEC | NOT | ROL | ROR | SHL | SHR
  | JMP | JZ | JNZ | JS | JNS | JO | JNO
  | PUSH | POP | CALL | INT | IN | OUT | ORG | DB
  | ADD | SUB | MUL | DIV | MOD | AND | OR | XOR | MOV | CMP
  deriving DecidableEq, Repr

/-- `token.value in Mnemonic`: the string-keyed mnemonic lookup of the
constants module, keys exactly as written in `parser.ts`. -/
def mnemonicOfString : String → Option Mnemonic
  | "END" => some .END
  | "HALT" => some .HALT
  | "INC" => some .INC
  | "DEC" => some .DEC
  | "NOT" => some .NOT
  | "ROL" => some .ROL
  | "ROR" => some .ROR
  | "SHL" => some .SHL
  | "SHR" => some .SHR
  | "JMP" => some .JMP
  | "JZ" => some .JZ
  | "JNZ" => some .JNZ
  | "JS" => some .JS
  | "JNS" => some .JNS
  | "JO" => some .JO
  | "JNO" => some .JNO
  | "PUSH" => some .PUSH
  | "POP" => some .POP
  | "CALL" => some .CALL
  | "INT" => some .INT
  | "IN" => some .IN
  | "OUT" => some .OUT
  | "ORG" => some .ORG
  | "DB" => some .DB
  | "ADD" => some .ADD
  | "SUB" => some .SUB
  | "MUL" => some .MUL
  | "DIV" => some .DIV
  | "MOD" => some .MOD
  | "AND" => some .AND
  | "OR" => some .OR
  | "XOR" => some .XOR
  | "MOV" => some .MOV
  | "CMP" => some .CMP
  | _ => none

/-- `MnemonicToOperandsCountMap` of the constants module, as used by the
`switch (operandsCount)` of `parseStatement`. -/
def operandsCount : Mnemonic → Nat
  | .END | .HALT => 0
  | .INC | .DEC | .NOT | .ROL | .ROR | .SHL | .SHR => 1
  | .JMP | .JZ | .JNZ | .JS | .JNS | .JO | .JNO => 1
  | .PUSH | .POP | .CALL | .INT | .IN | .OUT | .ORG | .DB => 1
  | .ADD | .SUB | .MUL | .DIV | .MOD | .AND | .OR | .XOR | .MOV | .CMP => 2

/-- Opcode names exactly as selected in `parser.ts`. -/
inductive Opcode where
  | END | HALT
  | INC_REG | DEC_REG | NOT_REG | ROL_REG | ROR_REG | SHL_REG | SHR_REG
  | JMP | JZ | JNZ | JS | JNS | JO | JNO
  | PUSH_FROM_REG | POP_TO_REG | CALL_ADDR | INT_ADDR
  | IN_FROM_PORT_TO_AL | OUT_FROM_AL_TO_PORT
  | ADD_REG_TO_REG | ADD_NUM_TO_REG
  | SUB_REG_FROM_REG | SUB_NUM_FROM_REG
  | MUL_REG_BY_REG | MUL_REG_BY_NUM
  | DIV_REG_BY_REG | DIV_REG_BY_NUM
  | MOD_REG_BY_REG | MOD_REG_BY_NUM
  | AND_REG_WITH_REG | AND_REG_WITH_NUM
  | OR_REG_WITH_REG | OR_REG_WITH_NUM
  | XOR_REG_WITH_REG | XOR_REG_WITH_NUM
  | MOV_NUM_TO_REG | MOV_ADDR_TO_REG | MOV_REG_ADDR_TO_REG
  | MOV_REG_TO_ADDR | MOV_REG_TO_REG_ADDR
  | CMP_REG_WITH_REG | CMP_REG_WITH_NUM | CMP_REG_WITH_ADDR
  deriving DecidableEq, Repr

/-- Modelled from the spec: an opcode is "a single byte identifying a
concrete operation + operand shape" (glossary); the concrete byte values
live in the constants module absent from the embedded sources and no claim
depends on them, so an enumeration index stands in for the byte value. -/
def Opcode.toByte (o : Opcode) : Nat := (Opcode.toCtorIdx o)

/-- `Opcode[mnemonic]` for the zero-operand mnemonics (case 0 of the
`switch (operandsCount)`). -/
def zeroOperandOpcode : Mnemonic → Opcode
  | .END => .END
  | _ => .HALT

/-- Modelled from the spec: `hexToDec` of the utils module absent from the
embedded sources — numeric literals are hexadecimal (spec §4.2 (f), §6), so
the string is read as a base-16 numeral; digits `0`-`9` and `A`-`F` carry
their hex value (other characters only reach it through validated inputs). -/
def hexDigitValue (c : Char) : Nat :=
  if 48 ≤ c.toNat ∧ c.toNat ≤ 57 then c.toNat - 48
  else if 65 ≤ c.toNat ∧ c.toNat ≤ 70 then c.toNat - 55
  else 0

/-- Modelled from the spec: hexadecimal string to value (see
`hexDigitValue`). -/
def hexToDec (s : String) : Nat :=
  s.data.foldl (fun acc c => acc * 16 + hexDigitValue c) 0

/-- Modelled from the spec: `stringToAscii` of the utils module absent from
the embedded sources — "a `String` operand contributes one byte per
character (its numeric code)" (spec §4.2 (g)). -/
def stringToAscii (s : String) : List Nat :=
  s.data.map Char.toNat

/-- Modelled from the spec: the `GeneralPurposeRegister` enum of the cpu
core module absent from the embedded sources — "four general-purpose 8-bit
registers" (spec §3), indexed in order AL, BL, CL, DL. -/
def registerCode : String → Nat
  | "AL" => 0
  | "BL" => 1
  | "CL" => 2
  | "DL" => 3
  | _ => 0

/-- `/^[A-Z_]+$/` (`LABEL_REGEXP` in `parser.ts`). -/
def labelRegexpTest (s : String) : Bool :=
  0 < s.length && s.data.all fun c => ('A' ≤ c && c ≤ 'Z') || c = '_'

/-- `/^[\dA-F]+$/` (`NUMBER_REGEXP` in `parser.ts`). -/
def numberRegexpTest (s : String) : Bool :=
  0 < s.length && s.data.all fun c => ('0' ≤ c && c ≤ '9') || ('A' ≤ c && c ≤ 'F')

/-- `/^[A-D]L$/` (`REGISTER_REGEXP` in `parser.ts`). -/
def registerRegexpTest (s : String) : Bool :=
  s.length = 2 && (match s.data with
    | [c1, c2] => ('A' ≤ c1 && c1 ≤ 'D') && c2 = 'L'
    | _ => false)

/-- `s.startsWith(c)` for a single character. -/
def startsWithChar (s : String) (c : Char) : Bool :=
  s.data.head? = some c

/-- The character codes of the opening bracket, single quote and double
quote checked in the `Unknown` case of `parseSingleOperand`. -/
def bracketChar : Char := Char.ofNat 91
def quoteChar : Char := Char.ofNat 34
def apostropheChar : Char := Char.ofNat 39

/-- `identifier.length` of `InvalidLabelError` in `exceptions.ts`: the
reported identifier is `value.slice(-1)` (one character) when the value
ends with a colon (character code 58), the whole value otherwise. -/
def invalidLabelLength (value : String) : Nat :=
  if value.data.getLast? = some (Char.ofNat 58) then 1 else value.length

/-- The assembler error taxonomy of `exceptions.ts`, each error carrying the
reported `position` and `length`. -/
inductive AssemblerError where
  | statementError (position extent : Nat)
  | invalidLabelError (position extent : Nat)
  | missingEndError
  | invalidNumberError (position extent : Nat)
  | addressError (position extent : Nat)
  | unterminatedAddressError (position extent : Nat)
  | singleQuoteError (position extent : Nat)
  | unterminatedStringError (position extent : Nat)
  | operandTypeError (position extent : Nat)
  | missingCommaError (position extent : Nat)
  deriving DecidableEq, Repr

/-- `Label` node: `{ identifier, range }` (`createLabel`). -/
structure Label where
  identifier : String
  range : SourceRange
  deriving DecidableEq, Repr

/-- `createLabel` in `parser.ts`. -/
def createLabel (t : Token) : Label :=
  { identifier := t.value, range := t.range }

/-- `Instruction` node: `{ mnemonic, opcode, range }` (`createInstruction`
plus the later `setOpcode`); the mnemonic string is stored after the
membership check, so it is kept as a `Mnemonic`. -/
structure Instruction where
  mnemonic : Mnemonic
  opcode : Option Opcode
  range : SourceRange
  deriving DecidableEq, Repr

/-- An operand's resolved value: a single byte or a byte sequence
(`number | number[]` in `parser.ts`; `undefined` is `Option.none`). -/
inductive OperandValue where
  | num (n : Nat)
  | arr (ns : List Nat)
  deriving DecidableEq, Repr

/-- `Operand` node of `parser.ts`. -/
structure Operand where
  type : OperandType
  value : Option OperandValue
  rawValue : String
  raw : String
  range : SourceRange
  deriving DecidableEq, Repr

/-- The value computation of `__createOperand`'s `switch (type)`. -/
def operandValue : OperandType → String → Option OperandValue
  | .Number, v => some (.num (hexToDec v))
  | .Address, v => some (.num (hexToDec v))
  | .Register, v => some (.num (registerCode v))
  | .RegisterAddress, v => some (.num (registerCode v))
  | .String, v => some (.arr (stringToAscii v))
  | .Label, _ => none

/-- `__createOperand` in `parser.ts`. -/
def __createOperand (type : OperandType) (token : Token) : Operand :=
  { type := type
    value := operandValue type token.value
    rawValue := token.value
    raw := token.raw
    range := token.range }

/-- `Statement` node of `parser.ts`. -/
structure Statement where
  label : Option Label
  instruction : Instruction
  operands : List Operand
  machineCode : List Nat
  range : SourceRange
  deriving DecidableEq, Repr

/-- The bytes an operand contributes to `machineCode`
(`operandValues.concat(operand.value)` appends one byte for a number, each
element for an array, nothing for `undefined`). -/
def operandBytes (op : Operand) : List Nat :=
  match op.value with
  | none => []
  | some (.num n) => [n]
  | some (.arr ns) => ns

/-- `createStatement` in `parser.ts`: machine code is the optional opcode
followed by the operand bytes folded left to right; the range runs from the
instruction's start to the last operand's end (the instruction's own end
when there are no operands) — the label is not part of it. -/
def createStatement (label : Option Label) (instruction : Instruction)
    (operands : List Operand) : Statement :=
  let machineCode :=
    (match instruction.opcode with
     | none => []
     | some o => [o.toByte]) ++
    operands.foldl (fun acc op => acc ++ operandBytes op) []
  let from' := instruction.range.from'
  let to' :=
    match operands.getLast? with
    | some lastOperand => lastOperand.range.to'
    | none => instruction.range.to'
  { label := label
    instruction := instruction
    operands := operands
    machineCode := machineCode
    range := { from' := from', to' := to' } }

/-- `validateLabel` in `parser.ts`: throws `InvalidLabelError` unless the
value matches `LABEL_REGEXP`. -/
def validateLabel (token : Token) : Except AssemblerError Token :=
  if labelRegexpTest token.value then .ok token
  else .error (.invalidLabelError token.position (invalidLabelLength token.value))

/-- `validateNumber` in `parser.ts`: throws `InvalidNumberError` when the
hexadecimal value exceeds `0xff`. -/
def validateNumber (token : Token) : Except AssemblerError Token :=
  if hexToDec token.value > 0xff then
    .error (.invalidNumberError token.position token.extent)
  else .ok token

/-- `parseLabel` in `parser.ts`: a label is recognized when the next token
is a colon; the label token is then validated. (When `tokens[index + 1]`
exists, `tokens[index]` does too, so the impossible missing case returns
no label.) -/
def parseLabel (tokens : List Token) (index : Nat) :
    Except AssemblerError (Option Label) :=
  match tokens.get? index, tokens.get? (index + 1) with
  | some tok, some next =>
    if next.type = TokenType.Colon then
      (validateLabel tok).map fun t => some (createLabel t)
    else .ok none
  | _, _ => .ok none

/-- The `AddressError` payload of `exceptions.ts`: reported one past the
opening bracket, with the value's length (or 1 for an empty value). -/
def addressErrorOf (token : Token) : AssemblerError :=
  .addressError (token.position + 1)
    (if 0 < token.value.length then token.value.length else 1)

/-- `parseSingleOperand` in `parser.ts`: dispatch on the token type, accept
the operand kinds listed in `expectedTypes` (an `Address` token may still
produce a `RegisterAddress` operand whenever `Address` is expected), and
fall through to `OperandTypeError`. -/
def parseSingleOperand (tokens : List Token) (index : Nat)
    (expectedTypes : List OperandType) : Except AssemblerError Operand :=
  match tokens.get? index with
  | none => .error .missingEndError
  | some token =>
    match token.type with
    | .Digits =>
      if expectedTypes.contains OperandType.Number then
        (validateNumber token).map fun t => __createOperand OperandType.Number t
      else .error (.operandTypeError token.position token.extent)
    | .Register =>
      if expectedTypes.contains OperandType.Register then
        .ok (__createOperand OperandType.Register token)
      else .error (.operandTypeError token.position token.extent)
    | .Address =>
      if expectedTypes.contains OperandType.Address then
        if numberRegexpTest token.value then
          (validateNumber token).map fun t => __createOperand OperandType.Address t
        else if registerRegexpTest token.value then
          .ok (__createOperand OperandType.RegisterAddress token)
        else .error (addressErrorOf token)
      else .error (.operandTypeError token.position token.extent)
    | .String =>
      if expectedTypes.contains OperandType.String then
        .ok (__createOperand OperandType.String token)
      else .error (.operandTypeError token.position token.extent)
    | .Unknown =>
      if startsWithChar token.raw bracketChar then
        .error (.unterminatedAddressError token.position token.extent)
      else if startsWithChar token.raw apostropheChar then
        .error (.singleQuoteError token.position token.extent)
      else if startsWithChar token.raw quoteChar then
        .error (.unterminatedStringError token.position token.extent)
      else if expectedTypes.contains OperandType.Number && numberRegexpTest token.value then
        (validateNumber token).map fun t => __createOperand OperandType.Number t
      else if expectedTypes.contains OperandType.Label then
        (validateLabel token).map fun t => __createOperand OperandType.Label t
      else .error (.operandTypeError token.position token.extent)
    | _ => .error (.operandTypeError token.position token.extent)

/-- `checkComma` in `parser.ts`: `MissingEndError` past the end of the
tokens, `MissingCommaError` on a non-comma token, nothing otherwise. -/
def checkComma (tokens : List Token) (index : Nat) : Option AssemblerError :=
  match tokens.get? index with
  | none => some .missingEndError
  | some token =>
    if token.type = TokenType.Comma then none
    else some (.missingCommaError token.position token.extent)

/-- The deduplicating fold over the first components of the expected type
pairs in `parseDoubleOperands`. -/
def firstOperandTypes (pairs : List (OperandType × OperandType)) :
    List OperandType :=
  pairs.foldl (fun acc p => if acc.contains p.1 then acc else acc ++ [p.1]) []

/-- The fold collecting the second components of the pairs whose first
component matches the parsed first operand's type. -/
def secondOperandTypes (pairs : List (OperandType × OperandType))
    (t : OperandType) : List OperandType :=
  pairs.foldl (fun acc p => if p.1 = t then acc ++ [p.2] else acc) []

/-- `parseDoubleOperands` in `parser.ts`: first operand, one comma, second
operand two tokens further on. -/
def parseDoubleOperands (tokens : List Token) (index : Nat)
    (pairs : List (OperandType × OperandType)) :
    Except AssemblerError (Operand × Operand) := do
  let firstOperand ← parseSingleOperand tokens index (firstOperandTypes pairs)
  match checkComma tokens (index + 1) with
  | some e => throw e
  | none => do
    let secondOperand ←
      parseSingleOperand tokens (index + 2) (secondOperandTypes pairs firstOperand.type)
    return (firstOperand, secondOperand)

/-- The shared shape of the eight `REG, REG | REG, NUM` two-operand cases
(`ADD`, `SUB`, `MUL`, `DIV`, `MOD`, `AND`, `OR`, `XOR` in `parseStatement`):
parse the operands against those two pairs and select the opcode from the
second operand's type (the opcode stays unset on any other type, as the
fall-through of the `switch` leaves it `null`). -/
def parseRegRegOrRegNum (rr rn : Opcode) (tokens : List Token) (index : Nat) :
    Except AssemblerError (Option Opcode × List Operand) := do
  let (firstOperand, secondOperand) ← parseDoubleOperands tokens index
    [(.Register, .Register), (.Register, .Number)]
  let opcode : Option Opcode :=
    match secondOperand.type with
    | .Register => some rr
    | .Number => some rn
    | _ => none
  return (opcode, [firstOperand, secondOperand])

/-- The operand-parsing part of `parseStatement`'s
`switch (operandsCount)` / inner `switch (mnemonic)`: returns the selected
opcode (if any), the operand list, and the number of tokens consumed past
the mnemonic (0, 1, or 3 as in the `consumeToken` calls). -/
def parseOperandsPart (tokens : List Token) (index : Nat) :
    Mnemonic → Except AssemblerError (Option Opcode × List Operand × Nat)
  | .END => .ok (some (zeroOperandOpcode .END), [], 0)
  | .HALT => .ok (some (zeroOperandOpcode .HALT), [], 0)
  | .INC => do
    let op ← parseSingleOperand tokens index [.Register]
    return (some .INC_REG, [op], 1)
  | .DEC => do
    let op ← parseSingleOperand tokens index [.Register]
    return (some .DEC_REG, [op], 1)
  | .NOT => do
    let op ← parseSingleOperand tokens index [.Register]
    return (some .NOT_REG, [op], 1)
  | .ROL => do
    let op ← parseSingleOperand tokens index [.Register]
    return (some .ROL_REG, [op], 1)
  | .ROR => do
    let op ← parseSingleOperand tokens index [.Register]
    return (some .ROR_REG, [op], 1)
  | .SHL => do
    let op ← parseSingleOperand tokens index [.Register]
    return (some .SHL_REG, [op], 1)
  | .SHR => do
    let op ← parseSingleOperand tokens index [.Register]
    return (some .SHR_REG, [op], 1)
  | .JMP => do
    let op ← parseSingleOperand tokens index [.Label]
    return (some .JMP, [op], 1)
  | .JZ => do
    let op ← parseSingleOperand tokens index [.Label]
    return (some .JZ, [op], 1)
  | .JNZ => do
    let op ← parseSingleOperand tokens index [.Label]
    return (some .JNZ, [op], 1)
  | .JS => do
    let op ← parseSingleOperand tokens index [.Label]
    return (some .JS, [op], 1)
  | .JNS => do
    let op ← parseSingleOperand tokens index [.Label]
    return (some .JNS, [op], 1)
  | .JO => do
    let op ← parseSingleOperand tokens index [.Label]
    return (some .JO, [op], 1)
  | .JNO => do
    let op ← parseSingleOperand tokens index [.Label]
    return (some .JNO, [op], 1)
  | .PUSH => do
    let op ← parseSingleOperand tokens index [.Register]
    return (some .PUSH_FROM_REG, [op], 1)
  | .POP => do
    let op ← parseSingleOperand tokens index [.Register]
    return (some .POP_TO_REG, [op], 1)
  | .CALL => do
    let op ← parseSingleOperand tokens index [.Number]
    return (some .CALL_ADDR, [op], 1)
  | .INT => do
    let op ← parseSingleOperand tokens index [.Number]
    return (some .INT_ADDR, [op], 1)
  | .IN => do
    let op ← parseSingleOperand tokens index [.Number]
    return (some .IN_FROM_PORT_TO_AL, [op], 1)
  | .OUT => do
    let op ← parseSingleOperand tokens index [.Number]
    return (some .OUT_FROM_AL_TO_PORT, [op], 1)
  | .ORG => do
    let op ← parseSingleOperand tokens index [.Number]
    return (none, [op], 1)
  | .DB => do
    let op ← parseSingleOperand tokens index [.Number, .String]
    return (none, [op], 1)
  | .ADD => do
    let (opc, ops) ← parseRegRegOrRegNum .ADD_REG_TO_REG .ADD_NUM_TO_REG tokens index
    return (opc, ops, 3)
  | .SUB => do
    let (opc, ops) ← parseRegRegOrRegNum .SUB_REG_FROM_REG .SUB_NUM_FROM_REG tokens index
    return (opc, ops, 3)
  | .MUL => do
    let (opc, ops) ← parseRegRegOrRegNum .MUL_REG_BY_REG .MUL_REG_BY_NUM tokens index
    return (opc, ops, 3)
  | .DIV => do
    let (opc, ops) ← parseRegRegOrRegNum .DIV_REG_BY_REG .DIV_REG_BY_NUM tokens index
    return (opc, ops, 3)
  | .MOD => do
    let (opc, ops) ← parseRegRegOrRegNum .MOD_REG_BY_REG .MOD_REG_BY_NUM tokens index
    return (opc, ops, 3)
  | .AND => do
    let (opc, ops) ← parseRegRegOrRegNum .AND_REG_WITH_REG .AND_REG_WITH_NUM tokens index
    return (opc, ops, 3)
  | .OR => do
    let (opc, ops) ← parseRegRegOrRegNum .OR_REG_WITH_REG .OR_REG_WITH_NUM tokens index
    return (opc, ops, 3)
  | .XOR => do
    let (opc, ops) ← parseRegRegOrRegNum .XOR_REG_WITH_REG .XOR_REG_WITH_NUM tokens index
    return (opc, ops, 3)
  | .MOV => do
    let (firstOperand, secondOperand) ← parseDoubleOperands tokens index
      [(.Register, .Number), (.Register, .Address), (.Address, .Register),
       (.Register, .RegisterAddress), (.RegisterAddress, .Register)]
    let opcode : Option Opcode :=
      match firstOperand.type with
      | .Register =>
        match secondOperand.type with
        | .Number => some .MOV_NUM_TO_REG
        | .Address => some .MOV_ADDR_TO_REG
        | .RegisterAddress => some .MOV_REG_ADDR_TO_REG
        | _ => none
      | .Address => some .MOV_REG_TO_ADDR
      | .RegisterAddress => some .MOV_REG_TO_REG_ADDR
      | _ => none
    return (opcode, [firstOperand, secondOperand], 3)
  | .CMP => do
    let (firstOperand, secondOperand) ← parseDoubleOperands tokens index
      [(.Register, .Register), (.Register, .Number), (.Register, .Address)]
    let opcode : Option Opcode :=
      match secondOperand.type with
      | .Register => some .CMP_REG_WITH_REG
      | .Number => some .CMP_REG_WITH_NUM
      | .Address => some .CMP_REG_WITH_ADDR
      | _ => none
    return (opcode, [firstOperand, secondOperand], 3)

/-- The `consumeToken(2 /* label + colon */)` of `parseStatement`. -/
def labelConsumedCount : Option Label → Nat
  | some _ => 2
  | none => 0

/-- `parseStatement` in `parser.ts`: optional label (two tokens), mnemonic
token (one token, `StatementError` when the token is not an unclassified
mnemonic, `MissingEndError` past the end), then the per-mnemonic operand
part; the consumed-token count is the sum of the three parts. -/
def parseStatement (tokens : List Token) (index : Nat) :
    Except AssemblerError (Statement × Nat) := do
  let label ← parseLabel tokens index
  let labelConsumed := labelConsumedCount label
  match tokens.get? (index + labelConsumed) with
  | none => throw .missingEndError
  | some token =>
    match (if token.type = TokenType.Unknown then mnemonicOfString token.value else none) with
    | none => throw (.statementError token.position token.extent)
    | some mnemonic => do
      let (opcode, operands, operandsConsumed) ←
        parseOperandsPart tokens (index + labelConsumed + 1) mnemonic
      let instruction : Instruction :=
        { mnemonic := mnemonic, opcode := opcode, range := token.range }
      return (createStatement label instruction operands,
              labelConsumed + 1 + operandsConsumed)

/-- The `for` loop of `parse` in `parser.ts`, with explicit fuel: `none`
marks fuel exhaustion (shown unreachable for fuel ≥ remaining tokens),
`some` the loop's outcome. -/
def parseLoop (tokens : List Token) :
    Nat → Nat → List Statement → Option (Except AssemblerError (List Statement))
  | fuel, index, statements =>
    if index < tokens.length then
      match fuel with
      | 0 => none
      | fuel' + 1 =>
        match parseStatement tokens index with
        | .error e => some (.error e)
        | .ok (statement, consumedTokensCount) =>
          parseLoop tokens fuel' (index + consumedTokensCount)
            (statements ++ [statement])
    else some (.ok statements)

/-- `parse` in `parser.ts`: run the statement loop from index 0, then fail
with `MissingEndError` when at least one statement was parsed and the last
one's mnemonic is not `END`. The fuel `tokens.length` is proven sufficient
(the loop consumes at least one token per iteration), so the `none` fallback
is never taken. -/
def parse (tokens : List Token) : Except AssemblerError (List Statement) :=
  match parseLoop tokens tokens.length 0 [] with
  | none => .error .missingEndError
  | some (.error e) => .error e
  | some (.ok statements) =>
    match statements.getLast? with
    | some lastStatement =>
      if lastStatement.instruction.mnemonic = Mnemonic.END then .ok statements
      else .error .missingEndError
    | none => .ok statements

/-! Controller model (`src/features/controller/hooks.ts`). The redux store
slices are flattened into one record of the fields `Controller.step` and
`Controller.reset` touch; the cpu core's `step` (outside the embedded
sources) is a parameter of the controller step. -/

/-- The cpu status slice: `{ fault, halted }` as read by
`selectCpuStatus`. -/
structure CpuStatus where
  fault : Option String
  halted : Bool
  deriving DecidableEq, Repr

/-- The store state visible to `Controller.step` / `Controller.reset`. -/
structure SimState where
  status : CpuStatus
  memoryData : List Nat
  cpuRegisters : List Nat
  isRunning : Bool
  isSuspended : Bool
  deriving DecidableEq, Repr

/-- The cpu core step function (`__step` imported by `hooks.ts`, not among
the embedded sources, hence abstracted): from memory data and registers to
either a `RuntimeError` or new memory data, new registers, and the
`halted` output signal. -/
def CoreStep : Type :=
  List Nat × List Nat → Except String (List Nat × List Nat × Bool)

/-- `Controller.step` of `hooks.ts`, restricted to the store fields of
`SimState`: a recorded fault or halt returns immediately after
`stopIfRunning` (the re-dispatched `setCpuHalted` leaves `halted` true) —
the core step is not invoked and memory/registers are untouched; a
suspended cpu also returns untouched; otherwise the core step runs, a
`RuntimeError` becomes `status.fault` via `setCpuFault`, a `halted` output
signal becomes `status.halted` via `setCpuHalted`, and the returned memory
data and registers are dispatched to the store. The boolean of the result
records whether the core step function was invoked. -/
def controllerStep (coreStep : CoreStep) (s : SimState) : SimState × Bool :=
  if s.status.fault.isSome || s.status.halted then
    ({ s with isRunning := false }, false)
  else if s.isSuspended then (s, false)
  else
    match coreStep (s.memoryData, s.cpuRegisters) with
    | .error msg =>
      ({ s with isRunning := false,
                status := { s.status with fault := some msg } }, true)
    | .ok (memoryData, cpuRegisters, shouldHalt) =>
      if shouldHalt then
        ({ s with isRunning := false,
                  memoryData := memoryData,
                  cpuRegisters := cpuRegisters,
                  status := { s.status with halted := true } }, true)
      else
        ({ s with memoryData := memoryData, cpuRegisters := cpuRegisters }, true)

/-- Iterated invocations of `Controller.step`. -/
def controllerSteps (coreStep : CoreStep) : Nat → SimState → SimState
  | 0, s => s
  | n + 1, s => controllerSteps coreStep n (controllerStep coreStep s).1

/-- Modelled from the spec: the fresh memory data dispatched by
`resetMemoryData` (memory slice outside the embedded sources) — a
fixed-capacity 256-byte image (spec §3); the reset byte contents are
abstracted to zeroes, no claim depends on them. -/
def initialMemoryData : List Nat := List.replicate 256 0

/-- Modelled from the spec: the fresh register file dispatched by
`resetCpuState` (cpu slice outside the embedded sources) — four
general-purpose registers, instruction pointer, stack pointer, status
register (spec §3), contents abstracted to zeroes. -/
def initialCpuRegisters : List Nat := List.replicate 7 0

/-- `Controller.reset` of `hooks.ts`: `fullyStop` then dispatch
`resetMemoryData`, `resetCpuState` (clearing fault and halt),
`resetAssemblerState`, `clearEditorActiveRange`, `resetIoState`. -/
def controllerReset (_ : SimState) : SimState :=
  { status := { fault := none, halted := false }
    memoryData := initialMemoryData
    cpuRegisters := initialCpuRegisters
    isRunning := false
    isSuspended := false }


/-- The breakpoint range reconstruction of `Controller.step`
(`hooks.ts` lines 352-357): the statement's own range has the label
omitted, so the label-inclusive span starts at `label.range.from` when a
label is present. -/
def statementRangeWithLabel (st : Statement) : SourceRange :=
  { from' :=
      match st.label with
      | none => st.range.from'
      | some l => l.range.from'
    to' := st.range.to' }

/-- The per-operand invariant behind the machine-code claim: the resolved
value is the one `__createOperand` computes from the operand's kind and raw
text. -/
def ValueInv (op : Operand) : Prop :=
  op.value = operandValue op.type op.rawValue

/-! Concrete tokens, statements and states used as witness inputs. -/

/-- The spec's own rejection example: the digits token `"100"`
(256 as a hexadecimal numeral). -/
def token100 : Token :=
  { type := .Digits, value := "100", raw := "100",
    range := { from' := 8, to' := 11 } }

/-- A well-formed label token. -/
def labelTokenLOOP : Token :=
  { type := .Unknown, value := "LOOP", raw := "LOOP",
    range := { from' := 0, to' := 4 } }

def colonToken : Token :=
  { type := .Colon, value := ":", raw := ":", range := { from' := 4, to' := 5 } }

/-- A malformed label token (`"2X"` starts with a digit). -/
def badLabelToken : Token :=
  { type := .Unknown, value := "2X", raw := "2X",
    range := { from' := 0, to' := 2 } }

def registerTokenAL : Token :=
  { type := .Register, value := "AL", raw := "AL",
    range := { from' := 4, to' := 6 } }

def digitsToken02 : Token :=
  { type := .Digits, value := "02", raw := "02",
    range := { from' := 7, to' := 9 } }

def endToken : Token :=
  { type := .Unknown, value := "END", raw := "END",
    range := { from' := 0, to' := 3 } }

def endStatement : Statement :=
  createStatement none
    { mnemonic := .END, opcode := some .END,
      range := { from' := 0, to' := 3 } } []

def haltToken : Token :=
  { type := .Unknown, value := "HALT", raw := "HALT",
    range := { from' := 0, to' := 4 } }

def haltStatement : Statement :=
  createStatement none
    { mnemonic := .HALT, opcode := some .HALT,
      range := { from' := 0, to' := 4 } } []

def endTokenAt6 : Token :=
  { type := .Unknown, value := "END", raw := "END",
    range := { from' := 6, to' := 9 } }

/-- The labeled one-statement program `LOOP: END`. -/
def labeledEndTokens : List Token := [labelTokenLOOP, colonToken, endTokenAt6]

def labeledEndStatement : Statement :=
  createStatement (some (createLabel labelTokenLOOP))
    { mnemonic := .END, opcode := some .END,
      range := { from' := 6, to' := 9 } } []

def addToken : Token :=
  { type := .Unknown, value := "ADD", raw := "ADD",
    range := { from' := 0, to' := 3 } }

def commaToken6 : Token :=
  { type := .Comma, value := ",", raw := ",", range := { from' := 6, to' := 7 } }

def registerTokenBL : Token :=
  { type := .Register, value := "BL", raw := "BL",
    range := { from' := 8, to' := 10 } }

def endTokenAt11 : Token :=
  { type := .Unknown, value := "END", raw := "END",
    range := { from' := 11, to' := 14 } }

/-- The program `ADD AL, BL` followed by `END`. -/
def addProgramTokens : List Token :=
  [addToken, registerTokenAL, commaToken6, registerTokenBL, endTokenAt11]

def addRegStatement : Statement :=
  createStatement none
    { mnemonic := .ADD, opcode := some .ADD_REG_TO_REG,
      range := { from' := 0, to' := 3 } }
    [__createOperand .Register registerTokenAL,
     __createOperand .Register registerTokenBL]

def endStatementAt11 : Statement :=
  createStatement none
    { mnemonic := .END, opcode := some .END,
      range := { from' := 11, to' := 14 } } []

def dbToken : Token :=
  { type := .Unknown, value := "DB", raw := "DB",
    range := { from' := 0, to' := 2 } }

def stringTokenAB : Token :=
  { type := .String, value := "AB", raw := "\"AB\"",
    range := { from' := 3, to' := 7 } }

def endTokenAt8 : Token :=
  { type := .Unknown, value := "END", raw := "END",
    range := { from' := 8, to' := 11 } }

/-- The program `DB "AB"` followed by `END`. -/
def dbProgramTokens : List Token := [dbToken, stringTokenAB, endTokenAt8]

def dbStatement : Statement :=
  createStatement none
    { mnemonic := .DB, opcode := none, range := { from' := 0, to' := 2 } }
    [__createOperand .String stringTokenAB]

def endStatementAt8 : Statement :=
  createStatement none
    { mnemonic := .END, opcode := some .END,
      range := { from' := 8, to' := 11 } } []

/-- A controller state with a recorded halt. -/
def haltedState : SimState :=
  { status := { fault := none, halted := true }
    memoryData := [1, 2, 3]
    cpuRegisters := [4, 5, 6]
    isRunning := true
    isSuspended := false }

/-- A core step that would mutate everything, never invoked on a halted
state. -/
def mutatingCoreStep : CoreStep := fun _ => .ok ([9], [9], false)

/-! Helper lemmas. -/

lemma contains_true {l : List OperandType} {a : OperandType} (h : a ∈ l) :
    l.contains a = true := List.elem_iff.mpr h

lemma validateNumber_le {tok : Token} (h : hexToDec tok.value ≤ 255) :
    validateNumber tok = .ok tok := by
  unfold validateNumber
  split
  · omega
  · rfl

lemma validateNumber_gt {tok : Token} (h : 255 < hexToDec tok.value) :
    validateNumber tok =
      .error (.invalidNumberError tok.position tok.extent) := by
  unfold validateNumber
  split
  · rfl
  · omega

lemma parseSingleOperand_digits {tokens : List Token} {index : Nat} {tok : Token}
    {expectedTypes : List OperandType} (hget : tokens.get? index = some tok)
    (htype : tok.type = TokenType.Digits)
    (hmem : OperandType.Number ∈ expectedTypes) :
    parseSingleOperand tokens index expectedTypes =
      (validateNumber tok).map fun t => __createOperand OperandType.Number t := by
  simp only [parseSingleOperand, hget, htype, contains_true hmem, if_true]

lemma labelRegexpTest_iff (s : String) :
    labelRegexpTest s = true ↔
      0 < s.length ∧ ∀ c ∈ s.data, ('A' ≤ c ∧ c ≤ 'Z') ∨ c = '_' := by
  simp [labelRegexpTest, List.all_eq_true, Bool.and_eq_true, Bool.or_eq_true,
    decide_eq_true_eq]

lemma validateLabel_ok_iff {tok : Token} :
    validateLabel tok = .ok tok ↔ labelRegexpTest tok.value = true := by
  unfold validateLabel
  split
  · simp [*]
  · rename_i hf
    constructor
    · intro h
      exact absurd h (by simp)
    · intro h
      exact absurd h hf

lemma validateLabel_fail {tok : Token} (h : labelRegexpTest tok.value = false) :
    validateLabel tok =
      .error (.invalidLabelError tok.position (invalidLabelLength tok.value)) := by
  unfold validateLabel
  rw [h]
  rfl

lemma parseStatement_ok_inv {tokens : List Token} {index : Nat}
    {st : Statement} {n : Nat}
    (h : parseStatement tokens index = .ok (st, n)) :
    ∃ (label : Option Label) (token : Token) (m : Mnemonic)
      (opc : Option Opcode) (ops : List Operand) (oc : Nat),
      parseLabel tokens index = .ok label ∧
      tokens.get? (index + labelConsumedCount label) = some token ∧
      (if token.type = TokenType.Unknown then mnemonicOfString token.value
        else none) = some m ∧
      parseOperandsPart tokens (index + labelConsumedCount label + 1) m =
        .ok (opc, ops, oc) ∧
      st = createStatement label
        { mnemonic := m, opcode := opc, range := token.range } ops ∧
      n = labelConsumedCount label + 1 + oc := by
  unfold parseStatement at h
  cases hpl : parseLabel tokens index with
  | error e => rw [hpl] at h; exact absurd h (by simp [bind, Except.bind])
  | ok label =>
    rw [hpl] at h
    simp only [bind, Except.bind] at h
    cases hget : tokens.get? (index + labelConsumedCount label) with
    | none => rw [hget] at h; exact absurd h (by simp)
    | some token =>
      rw [hget] at h
      dsimp only [] at h
      cases hm : (if token.type = TokenType.Unknown then
          mnemonicOfString token.value else none) with
      | none => rw [hm] at h; exact absurd h (by simp)
      | some m =>
        rw [hm] at h
        dsimp only [] at h
        cases hop : parseOperandsPart tokens
            (index + labelConsumedCount label + 1) m with
        | error e => rw [hop] at h; exact absurd h (by simp)
        | ok res =>
          obtain ⟨opc, ops, oc⟩ := res
          rw [hop] at h
          dsimp only [] at h
          simp only [pure, Except.pure, Except.ok.injEq, Prod.mk.injEq] at h
          obtain ⟨hst, hn⟩ := h
          exact ⟨label, token, m, opc, ops, oc, rfl, hget, hm, hop,
            hst.symm, hn.symm⟩

lemma parseStatement_one_le_consumed {tokens : List Token} {index : Nat}
    {st : Statement} {n : Nat}
    (h : parseStatement tokens index = .ok (st, n)) : 1 ≤ n := by
  obtain ⟨label, token, m, opc, ops, oc, -, -, -, -, -, hn⟩ :=
    parseStatement_ok_inv h
  omega

lemma parseLoop_isSome (tokens : List Token) :
    ∀ (fuel index : Nat) (acc : List Statement),
      tokens.length ≤ index + fuel →
      (parseLoop tokens fuel index acc).isSome = true := by
  intro fuel
  induction fuel with
  | zero =>
    intro index acc hle
    unfold parseLoop
    rw [if_neg (by omega)]
    rfl
  | succ fuel ih =>
    intro index acc hle
    unfold parseLoop
    by_cases hidx : index < tokens.length
    · rw [if_pos hidx]
      cases hps : parseStatement tokens index with
      | error e => rfl
      | ok res =>
        obtain ⟨st, n⟩ := res
        have := parseStatement_one_le_consumed hps
        exact ih (index + n) (acc ++ [st]) (by omega)
    · rw [if_neg hidx]
      rfl

lemma parseLoop_mem {tokens : List Token} :
    ∀ {fuel index : Nat} {acc stmts : List Statement} {st : Statement},
      parseLoop tokens fuel index acc = some (.ok stmts) → st ∈ stmts →
      st ∈ acc ∨ ∃ (i n : Nat), parseStatement tokens i = .ok (st, n) := by
  intro fuel
  induction fuel with
  | zero =>
    intro index acc stmts st h hmem
    unfold parseLoop at h
    split at h
    · exact absurd h (by simp)
    · simp only [Option.some.injEq, Except.ok.injEq] at h
      subst h
      exact Or.inl hmem
  | succ fuel ih =>
    intro index acc stmts st h hmem
    unfold parseLoop at h
    split at h
    · cases hps : parseStatement tokens index with
      | error e => rw [hps] at h; exact absurd h (by simp)
      | ok res =>
        obtain ⟨statement, consumed⟩ := res
        rw [hps] at h
        dsimp only [] at h
        rcases ih h hmem with hacc | hfound
        · rcases List.mem_append.mp hacc with hacc' | hone
          · exact Or.inl hacc'
          · rcases List.mem_singleton.mp hone with rfl
            exact Or.inr ⟨index, consumed, hps⟩
        · exact Or.inr hfound
    · simp only [Option.some.injEq, Except.ok.injEq] at h
      subst h
      exact Or.inl hmem

lemma parse_mem {tokens : List Token} {stmts : List Statement} {st : Statement}
    (h : parse tokens = .ok stmts) (hmem : st ∈ stmts) :
    ∃ (i n : Nat), parseStatement tokens i = .ok (st, n) := by
  unfold parse at h
  cases hl : parseLoop tokens tokens.length 0 [] with
  | none => rw [hl] at h; exact absurd h (by simp)
  | some r =>
    rw [hl] at h
    cases r with
    | error e => exact absurd h (by simp)
    | ok statements =>
      dsimp only [] at h
      have hsub : st ∈ statements := by
        cases hgl : statements.getLast? with
        | none =>
          rw [hgl] at h
          simp only [Except.ok.injEq] at h
          subst h
          exact hmem
        | some lastStatement =>
          rw [hgl] at h
          dsimp only [] at h
          split at h
          · simp only [Except.ok.injEq] at h
            subst h
            exact hmem
          · exact absurd h (by simp)
      rcases parseLoop_mem hl hsub with habs | hfound
      · exact absurd habs (by simp)
      · exact hfound

lemma parseRegRegOrRegNum_inv {rr rn : Opcode} {tokens : List Token}
    {index : Nat} {opc : Option Opcode} {ops : List Operand}
    (h : parseRegRegOrRegNum rr rn tokens index = .ok (opc, ops)) :
    ∃ o1 o2 : Operand, ops = [o1, o2] ∧
      (o2.type = OperandType.Register → opc = some rr) ∧
      (o2.type = OperandType.Number → opc = some rn) := by
  unfold parseRegRegOrRegNum at h
  cases hpd : parseDoubleOperands tokens index
      [(.Register, .Register), (.Register, .Number)] with
  | error e => rw [hpd] at h; exact absurd h (by simp [bind, Except.bind])
  | ok res =>
    obtain ⟨o1, o2⟩ := res
    rw [hpd] at h
    simp only [bind, Except.bind, pure, Except.pure, Except.ok.injEq,
      Prod.mk.injEq] at h
    obtain ⟨hopc, hops⟩ := h
    refine ⟨o1, o2, hops.symm, ?_, ?_⟩
    · intro ht
      rw [← hopc, ht]
    · intro ht
      rw [← hopc, ht]

lemma parseOperandsPart_ADD {tokens : List Token} {index : Nat}
    {opc : Option Opcode} {ops : List Operand} {oc : Nat}
    (h : parseOperandsPart tokens index .ADD = .ok (opc, ops, oc)) :
    ∃ o1 o2 : Operand, ops = [o1, o2] ∧
      (o2.type = OperandType.Register → opc = some Opcode.ADD_REG_TO_REG) ∧
      (o2.type = OperandType.Number → opc = some Opcode.ADD_NUM_TO_REG) := by
  unfold parseOperandsPart at h
  cases hpr : parseRegRegOrRegNum .ADD_REG_TO_REG .ADD_NUM_TO_REG tokens index with
  | error e => rw [hpr] at h; exact absurd h (by simp [bind, Except.bind])
  | ok res =>
    obtain ⟨opc', ops'⟩ := res
    rw [hpr] at h
    simp only [bind, Except.bind, pure, Except.pure, Except.ok.injEq,
      Prod.mk.injEq] at h
    obtain ⟨h1, h2, h3⟩ := h
    subst h1; subst h2
    exact parseRegRegOrRegNum_inv hpr

lemma parseOperandsPart_MOV {tokens : List Token} {index : Nat}
    {opc : Option Opcode} {ops : List Operand} {oc : Nat}
    (h : parseOperandsPart tokens index .MOV = .ok (opc, ops, oc)) :
    ∃ o1 o2 : Operand, ops = [o1, o2] ∧
      (o1.type = OperandType.Register → o2.type = OperandType.Number →
        opc = some Opcode.MOV_NUM_TO_REG) ∧
      (o1.type = OperandType.Register → o2.type = OperandType.Address →
        opc = some Opcode.MOV_ADDR_TO_REG) ∧
      (o1.type = OperandType.Register → o2.type = OperandType.RegisterAddress →
        opc = some Opcode.MOV_REG_ADDR_TO_REG) ∧
      (o1.type = OperandType.Address → opc = some Opcode.MOV_REG_TO_ADDR) ∧
      (o1.type = OperandType.RegisterAddress →
        opc = some Opcode.MOV_REG_TO_REG_ADDR) := by
  unfold parseOperandsPart at h
  cases hpd : parseDoubleOperands tokens index
      [(.Register, .Number), (.Register, .Address), (.Address, .Register),
       (.Register, .RegisterAddress), (.RegisterAddress, .Register)] with
  | error e => rw [hpd] at h; exact absurd h (by simp [bind, Except.bind])
  | ok res =>
    obtain ⟨o1, o2⟩ := res
    rw [hpd] at h
    simp only [bind, Except.bind, pure, Except.pure, Except.ok.injEq,
      Prod.mk.injEq] at h
    obtain ⟨hopc, hops, hoc⟩ := h
    refine ⟨o1, o2, hops.symm, ?_, ?_, ?_, ?_, ?_⟩ <;> intro ht1 <;>
      first
      | (intro ht2; rw [← hopc, ht1, ht2])
      | rw [← hopc, ht1]

lemma except_map_ok {f : Token → Operand} {e : Except AssemblerError Token}
    {op : Operand} (h : Except.map f e = .ok op) :
    ∃ t, e = .ok t ∧ op = f t := by
  cases e with
  | error a => exact absurd h (by simp [Except.map])
  | ok t =>
    refine ⟨t, rfl, ?_⟩
    simpa [Except.map] using h.symm

lemma parseSingleOperand_shape {tokens : List Token} {index : Nat}
    {tys : List OperandType} {op : Operand}
    (h : parseSingleOperand tokens index tys = .ok op) :
    ∃ (T : OperandType) (tok : Token), op = __createOperand T tok := by
  unfold parseSingleOperand at h
  repeat' split at h
  all_goals
    first
    | (obtain ⟨t, -, rfl⟩ := except_map_ok h; exact ⟨_, _, rfl⟩)
    | (simp only [Except.ok.injEq] at h; exact ⟨_, _, h.symm⟩)
    | exact absurd h (by simp)

lemma valueInv_createOperand (T : OperandType) (tok : Token) :
    ValueInv (__createOperand T tok) := rfl

lemma parseSingleOperand_valueInv {tokens : List Token} {index : Nat}
    {tys : List OperandType} {op : Operand}
    (h : parseSingleOperand tokens index tys = .ok op) : ValueInv op := by
  obtain ⟨T, tok, rfl⟩ := parseSingleOperand_shape h
  exact valueInv_createOperand T tok

lemma parseDoubleOperands_valueInv {tokens : List Token} {index : Nat}
    {pairs : List (OperandType × OperandType)} {o1 o2 : Operand}
    (h : parseDoubleOperands tokens index pairs = .ok (o1, o2)) :
    ValueInv o1 ∧ ValueInv o2 := by
  unfold parseDoubleOperands at h
  cases h1 : parseSingleOperand tokens index (firstOperandTypes pairs) with
  | error e => rw [h1] at h; exact absurd h (by simp [bind, Except.bind])
  | ok op1 =>
    rw [h1] at h
    simp only [bind, Except.bind] at h
    cases hc : checkComma tokens (index + 1) with
    | some e => rw [hc] at h; exact absurd h (by simp)
    | none =>
      rw [hc] at h
      dsimp only [] at h
      cases h2 : parseSingleOperand tokens (index + 2)
          (secondOperandTypes pairs op1.type) with
      | error e => rw [h2] at h; exact absurd h (by simp)
      | ok op2 =>
        rw [h2] at h
        simp only [pure, Except.pure, Except.ok.injEq, Prod.mk.injEq] at h
        obtain ⟨hl, hr⟩ := h
        subst hl; subst hr
        exact ⟨parseSingleOperand_valueInv h1, parseSingleOperand_valueInv h2⟩

lemma parseRegRegOrRegNum_valueInv {rr rn : Opcode} {tokens : List Token}
    {index : Nat} {opc : Option Opcode} {ops : List Operand}
    (h : parseRegRegOrRegNum rr rn tokens index = .ok (opc, ops)) :
    ∀ op ∈ ops, ValueInv op := by
  unfold parseRegRegOrRegNum at h
  cases hpd : parseDoubleOperands tokens index
      [(.Register, .Register), (.Register, .Number)] with
  | error e => rw [hpd] at h; exact absurd h (by simp [bind, Except.bind])
  | ok res =>
    obtain ⟨u1, u2⟩ := res
    rw [hpd] at h
    simp only [bind, Except.bind, pure, Except.pure, Except.ok.injEq,
      Prod.mk.injEq] at h
    obtain ⟨-, hops⟩ := h
    subst hops
    obtain ⟨hv1, hv2⟩ := parseDoubleOperands_valueInv hpd
    intro op hop
    simp only [List.mem_cons, List.not_mem_nil, or_false] at hop
    rcases hop with rfl | rfl
    · exact hv1
    · exact hv2

lemma parseOperandsPart_valueInv {tokens : List Token} {index : Nat}
    {m : Mnemonic} {opc : Option Opcode} {ops : List Operand} {oc : Nat}
    (h : parseOperandsPart tokens index m = .ok (opc, ops, oc)) :
    ∀ op ∈ ops, ValueInv op := by
  cases m <;> unfold parseOperandsPart at h <;> dsimp only [] at h
  case END | HALT =>
    simp only [Except.ok.injEq, Prod.mk.injEq] at h
    obtain ⟨-, h2, -⟩ := h
    subst h2
    intro op hop
    cases hop
  case ADD | SUB | MUL | DIV | MOD | AND | OR | XOR =>
    all_goals (
      cases hpr : parseRegRegOrRegNum _ _ tokens index with
      | error e => rw [hpr] at h; exact absurd h (by simp [bind, Except.bind])
      | ok res =>
        obtain ⟨opc', ops'⟩ := res
        rw [hpr] at h
        simp only [bind, Except.bind, pure, Except.pure, Except.ok.injEq,
          Prod.mk.injEq] at h
        obtain ⟨-, h2, -⟩ := h
        subst h2
        exact parseRegRegOrRegNum_valueInv hpr)
  case MOV | CMP =>
    all_goals (
      cases hpd : parseDoubleOperands tokens index _ with
      | error e => rw [hpd] at h; exact absurd h (by simp [bind, Except.bind])
      | ok res =>
        obtain ⟨o1, o2⟩ := res
        rw [hpd] at h
        simp only [bind, Except.bind, pure, Except.pure, Except.ok.injEq,
          Prod.mk.injEq] at h
        obtain ⟨-, h2, -⟩ := h
        subst h2
        obtain ⟨hv1, hv2⟩ := parseDoubleOperands_valueInv hpd
        intro op hop
        simp only [List.mem_cons, List.not_mem_nil, or_false] at hop
        rcases hop with rfl | rfl
        · exact hv1
        · exact hv2)
  all_goals (
    cases hp1 : parseSingleOperand tokens index _ with
    | error e => rw [hp1] at h; exact absurd h (by simp [bind, Except.bind])
    | ok op1 =>
      rw [hp1] at h
      simp only [bind, Except.bind, pure, Except.pure, Except.ok.injEq,
        Prod.mk.injEq] at h
      obtain ⟨-, h2, -⟩ := h
      subst h2
      intro op hop
      simp only [List.mem_cons, List.not_mem_nil, or_false] at hop
      subst hop
      exact parseSingleOperand_valueInv hp1)

lemma foldl_append_eq_join (f : Operand → List Nat) :
    ∀ (l : List Operand) (init : List Nat),
      l.foldl (fun acc op => acc ++ f op) init = init ++ (l.map f).flatten := by
  intro l
  induction l with
  | nil => intro init; simp
  | cons x xs ih => intro init; simp [ih]

lemma createStatement_machineCode (label : Option Label)
    (instruction : Instruction) (operands : List Operand) :
    (createStatement label instruction operands).machineCode =
      (match instruction.opcode with
        | none => []
        | some o => [o.toByte]) ++ (operands.map operandBytes).flatten := by
  simp only [createStatement]
  rw [foldl_append_eq_join]
  rfl

lemma controllerStep_guard {f : CoreStep} {s : SimState}
    (h : s.status.fault.isSome = true ∨ s.status.halted = true) :
    controllerStep f s = ({ s with isRunning := false }, false) := by
  unfold controllerStep
  rw [if_pos (by rcases h with h | h <;> simp [h])]

lemma controllerSteps_frozen {f : CoreStep} :
    ∀ (n : Nat) {s : SimState},
      s.status.fault.isSome = true ∨ s.status.halted = true →
      (controllerSteps f n s).memoryData = s.memoryData ∧
      (controllerSteps f n s).cpuRegisters = s.cpuRegisters ∧
      (controllerSteps f n s).status = s.status := by
  intro n
  induction n with
  | zero => intro s h; exact ⟨rfl, rfl, rfl⟩
  | succ n ih =>
    intro s h
    have hg := controllerStep_guard (f := f) h
    have hrw : controllerSteps f (n + 1) s =
        controllerSteps f n ({ s with isRunning := false }) := by
      show controllerSteps f n (controllerStep f s).1 =
        controllerSteps f n ({ s with isRunning := false })
      rw [hg]
    rw [hrw]
    exact ih h

/-! Theorems for the claims. -/

/-- C1: for every statement `parse` accepts, the opcode is selected by the
operand shapes of its mnemonic — an `ADD` statement whose second operand is
a `Register` receives `ADD_REG_TO_REG` and one whose second operand is a
`Number` receives `ADD_NUM_TO_REG`; a `MOV` statement receives
`MOV_NUM_TO_REG`, `MOV_ADDR_TO_REG`, `MOV_REG_ADDR_TO_REG`,
`MOV_REG_TO_ADDR`, or `MOV_REG_TO_REG_ADDR` according to its
(first, second) operand types. -/
theorem claim_C1_opcode_selection :
    ∀ (tokens : List Token) (stmts : List Statement) (st : Statement),
      parse tokens = Except.ok stmts → st ∈ stmts →
      (st.instruction.mnemonic = Mnemonic.ADD →
        ∃ o1 o2 : Operand, st.operands = [o1, o2] ∧
          (o2.type = OperandType.Register →
            st.instruction.opcode = some Opcode.ADD_REG_TO_REG) ∧
          (o2.type = OperandType.Number →
            st.instruction.opcode = some Opcode.ADD_NUM_TO_REG)) ∧
      (st.instruction.mnemonic = Mnemonic.MOV →
        ∃ o1 o2 : Operand, st.operands = [o1, o2] ∧
          (o1.type = OperandType.Register → o2.type = OperandType.Number →
            st.instruction.opcode = some Opcode.MOV_NUM_TO_REG) ∧
          (o1.type = OperandType.Register → o2.type = OperandType.Address →
            st.instruction.opcode = some Opcode.MOV_ADDR_TO_REG) ∧
          (o1.type = OperandType.Register →
            o2.type = OperandType.RegisterAddress →
            st.instruction.opcode = some Opcode.MOV_REG_ADDR_TO_REG) ∧
          (o1.type = OperandType.Address →
            st.instruction.opcode = some Opcode.MOV_REG_TO_ADDR) ∧
          (o1.type = OperandType.RegisterAddress →
            st.instruction.opcode = some Opcode.MOV_REG_TO_REG_ADDR)) := by
  intro tokens stmts st hp hmem
  obtain ⟨i, n, hps⟩ := parse_mem hp hmem
  obtain ⟨label, token, m, opc, ops, oc, -, -, -, hop, hst, -⟩ :=
    parseStatement_ok_inv hps
  subst hst
  constructor
  · intro hadd
    have hm : m = Mnemonic.ADD := hadd
    subst hm
    obtain ⟨o1, o2, hops, h1, h2⟩ := parseOperandsPart_ADD hop
    exact ⟨o1, o2, congrArg id hops, h1, h2⟩
  · intro hmov
    have hm : m = Mnemonic.MOV := hmov
    subst hm
    obtain ⟨o1, o2, hops, h1, h2, h3, h4, h5⟩ := parseOperandsPart_MOV hop
    exact ⟨o1, o2, congrArg id hops, h1, h2, h3, h4, h5⟩

/-- C1 witness: the parsed `ADD AL, BL` statement of `addProgramTokens`
carries `ADD_REG_TO_REG`. -/
theorem claim_C1_witness :
    ∃ o1 o2 : Operand, addRegStatement.operands = [o1, o2] ∧
      (o2.type = OperandType.Register →
        addRegStatement.instruction.opcode = some Opcode.ADD_REG_TO_REG) ∧
      (o2.type = OperandType.Number →
        addRegStatement.instruction.opcode = some Opcode.ADD_NUM_TO_REG) :=
  (claim_C1_opcode_selection addProgramTokens [addRegStatement, endStatementAt11]
    addRegStatement (by rfl) (by simp)).1 rfl

/-- C3: every successfully parsed statement's `machineCode` is the selected
opcode (when one was selected) followed by each operand's byte value(s) in
operand order; a `Label` operand contributes no byte and a `String` operand
contributes one byte per character of its raw text. -/
theorem claim_C3_machine_code :
    ∀ (tokens : List Token) (stmts : List Statement) (st : Statement),
      parse tokens = Except.ok stmts → st ∈ stmts →
      st.machineCode =
        (match st.instruction.opcode with
          | none => []
          | some o => [o.toByte]) ++ (st.operands.map operandBytes).flatten ∧
      (∀ op ∈ st.operands, op.type = OperandType.Label →
        operandBytes op = []) ∧
      (∀ op ∈ st.operands, op.type = OperandType.String →
        operandBytes op = stringToAscii op.rawValue) := by
  intro tokens stmts st hp hmem
  obtain ⟨i, n, hps⟩ := parse_mem hp hmem
  obtain ⟨label, token, m, opc, ops, oc, -, -, -, hop, hst, -⟩ :=
    parseStatement_ok_inv hps
  have hinv := parseOperandsPart_valueInv hop
  subst hst
  refine ⟨createStatement_machineCode label _ ops, ?_, ?_⟩
  · intro op hopmem htype
    have hv : op.value = operandValue op.type op.rawValue := hinv op hopmem
    unfold operandBytes
    rw [hv, htype]
    rfl
  · intro op hopmem htype
    have hv : op.value = operandValue op.type op.rawValue := hinv op hopmem
    unfold operandBytes
    rw [hv, htype]
    rfl

/-- C3 witness: the parsed `DB "AB"` statement of `dbProgramTokens` — no
opcode, machine code is the two character codes of `AB`. -/
theorem claim_C3_witness :
    dbStatement.machineCode =
      (match dbStatement.instruction.opcode with
        | none => []
        | some o => [o.toByte]) ++
        (dbStatement.operands.map operandBytes).flatten ∧
    (∀ op ∈ dbStatement.operands, op.type = OperandType.Label →
      operandBytes op = []) ∧
    (∀ op ∈ dbStatement.operands, op.type = OperandType.String →
      operandBytes op = stringToAscii op.rawValue) :=
  claim_C3_machine_code dbProgramTokens [dbStatement, endStatementAt8]
    dbStatement (by rfl) (by simp)

/-- C4 counterexample: parsing the labeled program `LOOP: END` yields a
statement whose label starts at position 0 but whose `range` starts at 6,
the instruction's start — the statement's source range does not start at
the label's start position, contrary to the claim. -/
theorem claim_C4_counterexample :
    parseStatement labeledEndTokens 0 = Except.ok (labeledEndStatement, 3) ∧
    labeledEndStatement.label =
      some { identifier := "LOOP", range := { from' := 0, to' := 4 } } ∧
    labeledEndStatement.range.from' = 6 ∧
    ¬ labeledEndStatement.range.from' = 0 := by
  refine ⟨by rfl, rfl, rfl, by decide⟩

/-- C4 amended: every successfully parsed statement's range starts at the
instruction's start (the label, when present, is omitted from the
statement's own range) and ends at the last operand's end (the
instruction's end when there are no operands); the label-inclusive
label-to-last-operand span is the controller's reconstruction
`statementRangeWithLabel`, which starts at the label's start. -/
theorem claim_C4_amended :
    ∀ (tokens : List Token) (stmts : List Statement) (st : Statement),
      parse tokens = Except.ok stmts → st ∈ stmts →
      st.range.from' = st.instruction.range.from' ∧
      st.range.to' =
        (match st.operands.getLast? with
          | some lastOperand => lastOperand.range.to'
          | none => st.instruction.range.to') ∧
      (∀ l, st.label = some l →
        statementRangeWithLabel st =
          { from' := l.range.from', to' := st.range.to' }) := by
  intro tokens stmts st hp hmem
  obtain ⟨i, n, hps⟩ := parse_mem hp hmem
  obtain ⟨label, token, m, opc, ops, oc, -, -, -, -, hst, -⟩ :=
    parseStatement_ok_inv hps
  subst hst
  refine ⟨rfl, rfl, ?_⟩
  intro l hl
  simp only [statementRangeWithLabel, hl]

/-- C4 witness: the amended range facts evaluated on the parsed
`LOOP: END` program. -/
theorem claim_C4_witness :
    labeledEndStatement.range.from' =
      labeledEndStatement.instruction.range.from' ∧
    labeledEndStatement.range.to' =
      (match labeledEndStatement.operands.getLast? with
        | some lastOperand => lastOperand.range.to'
        | none => labeledEndStatement.instruction.range.to') ∧
    (∀ l, labeledEndStatement.label = some l →
      statementRangeWithLabel labeledEndStatement =
        { from' := l.range.from', to' := labeledEndStatement.range.to' }) :=
  claim_C4_amended labeledEndTokens [labeledEndStatement] labeledEndStatement
    (by rfl) (by simp)

/-- C5: when `parse` returns a statement list, a non-empty result ends with
an `END` statement; and when the statement loop succeeds with a last
statement that is not `END`, `parse` fails with `MissingEndError`. -/
theorem claim_C5_end_required :
    (∀ (tokens : List Token) (stmts : List Statement) (st : Statement),
      parse tokens = Except.ok stmts → stmts.getLast? = some st →
      st.instruction.mnemonic = Mnemonic.END) ∧
    (∀ (tokens : List Token) (stmts : List Statement) (st : Statement),
      parseLoop tokens tokens.length 0 [] = some (Except.ok stmts) →
      stmts.getLast? = some st → st.instruction.mnemonic ≠ Mnemonic.END →
      parse tokens = Except.error AssemblerError.missingEndError) := by
  constructor
  · intro tokens stmts st hp hlast
    unfold parse at hp
    cases hl : parseLoop tokens tokens.length 0 [] with
    | none => rw [hl] at hp; exact absurd hp (by simp)
    | some r =>
      rw [hl] at hp
      cases r with
      | error e => exact absurd hp (by simp)
      | ok statements =>
        dsimp only [] at hp
        cases hgl : statements.getLast? with
        | none =>
          rw [hgl] at hp
          simp only [Except.ok.injEq] at hp
          subst hp
          rw [hgl] at hlast
          exact absurd hlast (by simp)
        | some lastStatement =>
          rw [hgl] at hp
          dsimp only [] at hp
          by_cases hend : lastStatement.instruction.mnemonic = Mnemonic.END
          · rw [if_pos hend] at hp
            simp only [Except.ok.injEq] at hp
            subst hp
            rw [hgl] at hlast
            cases hlast
            exact hend
          · rw [if_neg hend] at hp
            exact absurd hp (by simp)
  · intro tokens stmts st hl hlast hne
    unfold parse
    rw [hl]
    dsimp only []
    rw [hlast]
    dsimp only []
    rw [if_neg hne]

/-- C5 witness: the one-statement program `END` ends with `END`; the
one-statement program `HALT` (a no-operand, non-`END` mnemonic) makes
`parse` fail with `MissingEndError`. -/
theorem claim_C5_witness :
    endStatement.instruction.mnemonic = Mnemonic.END ∧
    parse [haltToken] = Except.error AssemblerError.missingEndError := by
  constructor
  · exact claim_C5_end_required.1 [endToken] [endStatement] endStatement rfl rfl
  · exact claim_C5_end_required.2 [haltToken] [haltStatement] haltStatement
      rfl rfl (by decide)

/-- C10: `parse` terminates on every finite token sequence — every
successful `parseStatement` consumes at least the mnemonic token, so the
loop with fuel `tokens.length` never exhausts its fuel. -/
theorem claim_C10_parse_terminates :
    (∀ (tokens : List Token) (index : Nat) (st : Statement) (n : Nat),
      parseStatement tokens index = Except.ok (st, n) → 1 ≤ n) ∧
    (∀ tokens : List Token,
      ∃ r, parseLoop tokens tokens.length 0 [] = some r) := by
  constructor
  · intro tokens index st n h
    exact parseStatement_one_le_consumed h
  · intro tokens
    have h := parseLoop_isSome tokens tokens.length 0 [] (by omega)
    exact Option.isSome_iff_exists.mp h

/-- C10 witness: the one-token program `END` is parsed consuming one token,
and its loop completes. -/
theorem claim_C10_witness :
    1 ≤ 1 ∧ ∃ r, parseLoop [endToken] [endToken].length 0 [] = some r := by
  constructor
  · exact claim_C10_parse_terminates.1 [endToken] 0 endStatement 1 (by rfl)
  · exact claim_C10_parse_terminates.2 [endToken]

/-- C8: once the cpu status records a halt or fault, every subsequent
controller step returns without invoking the core step function, leaving
memory data, registers and status untouched, until `controllerReset`
reconstructs the fresh state. -/
theorem claim_C8_halt_fault_latch :
    ∀ (coreStep : CoreStep) (s : SimState),
      s.status.fault.isSome = true ∨ s.status.halted = true →
      (∀ n : Nat,
        (controllerSteps coreStep n s).memoryData = s.memoryData ∧
        (controllerSteps coreStep n s).cpuRegisters = s.cpuRegisters ∧
        (controllerSteps coreStep n s).status = s.status ∧
        (controllerStep coreStep (controllerSteps coreStep n s)).2 = false) ∧
      (controllerReset s).status = { fault := none, halted := false } ∧
      (controllerReset s).memoryData = initialMemoryData ∧
      (controllerReset s).cpuRegisters = initialCpuRegisters := by
  intro coreStep s h
  refine ⟨?_, rfl, rfl, rfl⟩
  intro n
  obtain ⟨h1, h2, h3⟩ := controllerSteps_frozen (f := coreStep) n h
  refine ⟨h1, h2, h3, ?_⟩
  have h' : (controllerSteps coreStep n s).status.fault.isSome = true ∨
      (controllerSteps coreStep n s).status.halted = true := by
    rw [h3]
    exact h
  rw [controllerStep_guard (f := coreStep) h']

/-- C8 witness: two controller steps on a halted state leave memory
untouched, a third would still not invoke the (mutating) core step, and the
reset clears the status. -/
theorem claim_C8_witness :
    (controllerSteps mutatingCoreStep 2 haltedState).memoryData =
      haltedState.memoryData ∧
    (controllerStep mutatingCoreStep
      (controllerSteps mutatingCoreStep 2 haltedState)).2 = false ∧
    (controllerReset haltedState).status = { fault := none, halted := false } := by
  have h := claim_C8_halt_fault_latch mutatingCoreStep haltedState (Or.inr rfl)
  exact ⟨(h.1 2).1, (h.1 2).2.2.2, h.2.1⟩

/-- C9: `parse` applied to the empty token sequence succeeds and returns the
empty statement list — the missing-END check fires only when at least one
statement was parsed. -/
theorem claim_C9_empty_parse : parse [] = Except.ok [] := rfl

/-- C2: a numeric-literal token is accepted as an operand iff its
hexadecimal value is at most 255; a digits token whose value exceeds 255
fails with an `InvalidNumberError` carrying the token's position and
length (both through `validateNumber` and through the `Digits` operand
path of `parseSingleOperand`). -/
theorem claim_C2_numeric_bound :
    ∀ (tokens : List Token) (index : Nat) (tok : Token)
      (expectedTypes : List OperandType),
      (validateNumber tok = Except.ok tok ↔ hexToDec tok.value ≤ 255) ∧
      (255 < hexToDec tok.value →
        validateNumber tok =
          Except.error (.invalidNumberError tok.position tok.extent)) ∧
      (tokens.get? index = some tok → tok.type = TokenType.Digits →
        OperandType.Number ∈ expectedTypes →
        ((∃ op, parseSingleOperand tokens index expectedTypes = Except.ok op) ↔
          hexToDec tok.value ≤ 255) ∧
        (255 < hexToDec tok.value →
          parseSingleOperand tokens index expectedTypes =
            Except.error (.invalidNumberError tok.position tok.extent))) := by
  intro tokens index tok expectedTypes
  refine ⟨⟨fun h => ?_, validateNumber_le⟩, validateNumber_gt, ?_⟩
  · by_contra hgt
    rw [validateNumber_gt (by omega)] at h
    exact absurd h (by simp)
  · intro hget htype hmem
    rw [parseSingleOperand_digits hget htype hmem]
    constructor
    · constructor
      · rintro ⟨op, hop⟩
        by_contra hgt
        rw [validateNumber_gt (by omega)] at hop
        exact absurd hop (by simp [Except.map])
      · intro hle
        rw [validateNumber_le hle]
        exact ⟨_, rfl⟩
    · intro hgt
      rw [validateNumber_gt hgt]
      rfl

/-- C2 witness: `"100"` is rejected with an `InvalidNumberError` at the
token's position 8 with length 3. -/
theorem claim_C2_witness :
    ([token100].get? 0 = some token100 ∧ token100.type = TokenType.Digits ∧
      OperandType.Number ∈ [OperandType.Number] ∧ 255 < hexToDec token100.value) ∧
    parseSingleOperand [token100] 0 [OperandType.Number] =
      Except.error (.invalidNumberError 8 3) := by
  refine ⟨⟨rfl, rfl, by simp, by decide⟩, ?_⟩
  exact ((claim_C2_numeric_bound [token100] 0 token100 [OperandType.Number]).2.2
    rfl rfl (by simp)).2 (by decide)

/-- C6: a token taken as a label (followed by a colon, or where a `Label`
operand is expected) is accepted iff its text is one or more characters
drawn from `A`-`Z` and underscore; otherwise an `InvalidLabelError` at that
token is raised. -/
theorem claim_C6_label_grammar :
    ∀ (tokens : List Token) (index : Nat) (tok next : Token),
      ((validateLabel tok = Except.ok tok) ↔
        (0 < tok.value.length ∧
          ∀ c ∈ tok.value.data, ('A' ≤ c ∧ c ≤ 'Z') ∨ c = '_')) ∧
      (¬(0 < tok.value.length ∧
          ∀ c ∈ tok.value.data, ('A' ≤ c ∧ c ≤ 'Z') ∨ c = '_') →
        validateLabel tok = Except.error
          (.invalidLabelError tok.position (invalidLabelLength tok.value))) ∧
      (tokens.get? index = some tok → tokens.get? (index + 1) = some next →
        next.type = TokenType.Colon →
        parseLabel tokens index =
          (validateLabel tok).map fun t => some (createLabel t)) ∧
      (tokens.get? index = some tok → tok.type = TokenType.Unknown →
        startsWithChar tok.raw bracketChar = false →
        startsWithChar tok.raw apostropheChar = false →
        startsWithChar tok.raw quoteChar = false →
        parseSingleOperand tokens index [OperandType.Label] =
          (validateLabel tok).map fun t => __createOperand OperandType.Label t) := by
  intro tokens index tok next
  refine ⟨?_, ?_, ?_, ?_⟩
  · rw [validateLabel_ok_iff, labelRegexpTest_iff]
  · intro h
    refine validateLabel_fail ?_
    rw [← labelRegexpTest_iff] at h
    simpa using h
  · intro hget hnext hcolon
    simp only [parseLabel, hget, hnext, hcolon, if_true]
  · intro hget htype hb ha hq
    simp only [parseSingleOperand, hget, htype, hb, ha, hq, Bool.false_eq_true,
      if_false]
    rfl

/-- C6 witness: `LOOP` followed by a colon parses as a label; `2X` is
rejected with an `InvalidLabelError` at position 0 with length 2. -/
theorem claim_C6_witness :
    parseLabel [labelTokenLOOP, colonToken] 0 =
      Except.ok (some (createLabel labelTokenLOOP)) ∧
    validateLabel badLabelToken =
      Except.error (.invalidLabelError badLabelToken.position
        (invalidLabelLength badLabelToken.value)) ∧
    badLabelToken.position = 0 ∧ invalidLabelLength badLabelToken.value = 2 := by
  refine ⟨?_, ?_, by decide, by decide⟩
  · rw [(claim_C6_label_grammar [labelTokenLOOP, colonToken] 0
      labelTokenLOOP colonToken).2.2.1 rfl rfl rfl]
    rfl
  · exact (claim_C6_label_grammar [] 0 badLabelToken badLabelToken).2.1
      (by decide)

/-- C7: between the two operands of a two-operand mnemonic exactly one
comma is required — a non-comma token after the first operand fails the
statement with a `MissingCommaError` at that token, and with the comma
present the second operand is parsed two tokens past the first. -/
theorem claim_C7_missing_comma :
    ∀ (tokens : List Token) (index : Nat)
      (pairs : List (OperandType × OperandType)) (op1 : Operand) (tok : Token),
      parseSingleOperand tokens index (firstOperandTypes pairs) = Except.ok op1 →
      tokens.get? (index + 1) = some tok →
      (tok.type ≠ TokenType.Comma →
        parseDoubleOperands tokens index pairs =
          Except.error (.missingCommaError tok.position tok.extent)) ∧
      (tok.type = TokenType.Comma →
        parseDoubleOperands tokens index pairs =
          (parseSingleOperand tokens (index + 2)
              (secondOperandTypes pairs op1.type)).map
            fun op2 => (op1, op2)) := by
  intro tokens index pairs op1 tok h1 hget
  constructor
  · intro hne
    have hcheck : checkComma tokens (index + 1) =
        some (.missingCommaError tok.position tok.extent) := by
      simp only [checkComma, hget]
      rw [if_neg hne]
    simp only [parseDoubleOperands, bind, Except.bind, h1, hcheck]
    rfl
  · intro heq
    have hcheck : checkComma tokens (index + 1) = none := by
      simp only [checkComma, hget]
      rw [if_pos heq]
    simp only [parseDoubleOperands, bind, Except.bind, h1, hcheck]
    cases hps : parseSingleOperand tokens (index + 2)
        (secondOperandTypes pairs op1.type) <;>
      simp [hps, Except.map, pure, Except.pure]

/-- C7 witness: `AL 02` (no comma) fails the `ADD` operand pair parse with
a `MissingCommaError` at the `02` token (position 7, length 2). -/
theorem claim_C7_witness :
    parseSingleOperand [registerTokenAL, digitsToken02] 0
        (firstOperandTypes [(OperandType.Register, OperandType.Register),
          (OperandType.Register, OperandType.Number)]) =
      Except.ok (__createOperand OperandType.Register registerTokenAL) ∧
    digitsToken02.type ≠ TokenType.Comma ∧
    parseDoubleOperands [registerTokenAL, digitsToken02] 0
        [(OperandType.Register, OperandType.Register),
         (OperandType.Register, OperandType.Number)] =
      Except.error (.missingCommaError 7 2) := by
  refine ⟨by rfl, by decide, ?_⟩
  exact (claim_C7_missing_comma [registerTokenAL, digitsToken02] 0
    [(OperandType.Register, OperandType.Register),
     (OperandType.Register, OperandType.Number)]
    (__createOperand OperandType.Register registerTokenAL) digitsToken02
    (by rfl) rfl).1 (by decide)

end AsmSim
